import Mathlib

/-!
Verification of the RPC types core of `src/shared/src/types/rpc.rs`:
the query-path codec (`Path`, `impl Display for Path`, `impl FromStr for Path`,
`PathParseError`), the transaction-result resolver (`TxResponse::find_tx`,
`TendermintEventType`) and the error taxonomy (`QueryError`).

Strings are modelled as lists of Unicode scalar values (`List Nat`), so that
Rust's byte/char-level operations (`to_lowercase` on the ASCII range,
`split_once("/")`) become plain recursive functions.  External collaborators
are modelled at their documented interfaces:
  * the storage-key parser (`storage::Key::parse` / `Display`) is a parameter
    (spec, section 6: "must expose parse(&str) -> Result<Key, KeyError> and a
    canonical to_string");
  * the jsonpath selector (`jsonpath_lib`) follows standard jsonpath
    semantics: a selection returns the list of matched nodes, and a path that
    matches nothing (missing field, index past the end of the array) returns
    an empty selection rather than an error;
  * `serde_json::from_value::<String>` succeeds exactly on JSON strings, and
    `serde_json::from_str::<Vec<Address>>` parses a JSON array of strings
    (addresses are kept opaque, see `Address`).
-/

namespace AnomaRpc

/-- A Unicode scalar value (Rust `char`), as a natural number. -/
abbrev Ch := Nat

/-- A Rust string, as its list of scalar values. -/
abbrev Str := List Ch

/-- Embed a Lean string literal into the model. -/
def lit (s : String) : Str := s.toList.map Char.toNat

/-- Rust `char::to_lowercase` restricted to the ASCII range (the only range
exercised by the fixed path grammar): uppercase ASCII letters are shifted by
32, every other scalar value is left unchanged. -/
def lowerChar (c : Nat) : Nat := if 65 ≤ c ∧ c ≤ 90 then c + 32 else c

/-- Rust `str::to_lowercase` (ASCII fragment): lowercase every character. -/
def toLowerStr (s : Str) : Str := s.map lowerChar

/-- Rust `str::split_once("/")`: split at the first `/` (scalar value 47)
only, returning the part before and the (whole, unsplit) part after; `none`
when the string contains no `/`. -/
def splitOnce : Str → Option (Str × Str)
  | [] => none
  | c :: cs =>
    if c = 47 then some ([], cs)
    else
      match splitOnce cs with
      | some (l, r) => some (c :: l, r)
      | none => none

/-- `const DRY_RUN_TX_PATH: &str = "dry_run_tx"` (rpc.rs line 28). -/
def DRY_RUN_TX_PATH : Str := lit "dry_run_tx"

/-- `const EPOCH_PATH: &str = "epoch"` (rpc.rs line 29). -/
def EPOCH_PATH : Str := lit "epoch"

/-- `const VALUE_PREFIX: &str = "value"` (rpc.rs line 30). -/
def VALUE_PREFIX : Str := lit "value"

/-- `const PREFIX_PREFIX: &str = "prefix"` (rpc.rs line 31). -/
def PREFIX_PREFIX : Str := lit "prefix"

/-- `const HAS_KEY_PREFIX: &str = "has_key"` (rpc.rs line 32). -/
def HAS_KEY_PREFIX : Str := lit "has_key"

/-- `const ACCEPTED: &str = "accepted"` (rpc.rs line 33). -/
def ACCEPTED : Str := lit "accepted"

/-- `const APPLIED: &str = "applied"` (rpc.rs line 34). -/
def APPLIED : Str := lit "applied"

/-- `enum Path` (rpc.rs lines 244-256), parametrised by the external storage
key type `K` (`storage::Key` lives outside this core; spec section 6 treats it
as an interface-only collaborator). -/
inductive Path (K : Type) where
  | DryRunTx : Path K
  | Epoch : Path K
  | Value : K → Path K
  | Prefix : K → Path K
  | HasKey : K → Path K
deriving DecidableEq

/-- `enum PathParseError` (rpc.rs lines 315-322), parametrised by the external
key-parse error type `E` (`storage::Error`). -/
inductive PathParseError (E : Type) where
  | InvalidPath : Str → PathParseError E
  | InvalidStorageKey : E → PathParseError E
deriving DecidableEq

/-- `impl Display for Path` (rpc.rs lines 258-274): the fixed literal for the
two payload-free variants, and `"<literal>/<key-string>"` for the keyed ones,
where `keyStr` is the external key type's `Display` (its canonical string
form). -/
def Path.toStr {K : Type} (keyStr : K → Str) : Path K → Str
  | .DryRunTx => DRY_RUN_TX_PATH
  | .Epoch => EPOCH_PATH
  | .Value k => VALUE_PREFIX ++ 47 :: keyStr k
  | .Prefix k => PREFIX_PREFIX ++ 47 :: keyStr k
  | .HasKey k => HAS_KEY_PREFIX ++ 47 :: keyStr k

/-- `impl FromStr for Path` (rpc.rs lines 276-304): lowercase the whole input,
compare against the two payload-free literals, otherwise `split_once("/")`
and dispatch on the left segment, feeding the remainder to the external key
parser `parse` (`storage::Key::parse`); a key-parse failure becomes
`InvalidStorageKey`, any other shape becomes `InvalidPath` carrying the
original (non-folded) input. -/
def Path.fromStr {K E : Type} (parse : Str → Except E K) (s : Str) :
    Except (PathParseError E) (Path K) :=
  if toLowerStr s = DRY_RUN_TX_PATH then .ok .DryRunTx
  else if toLowerStr s = EPOCH_PATH then .ok .Epoch
  else
    match splitOnce (toLowerStr s) with
    | some (l, r) =>
      if l = VALUE_PREFIX then
        match parse r with
        | .ok k => .ok (.Value k)
        | .error e => .error (.InvalidStorageKey e)
      else if l = PREFIX_PREFIX then
        match parse r with
        | .ok k => .ok (.Prefix k)
        | .error e => .error (.InvalidStorageKey e)
      else if l = HAS_KEY_PREFIX then
        match parse r with
        | .ok k => .ok (.HasKey k)
        | .error e => .error (.InvalidStorageKey e)
      else .error (.InvalidPath s)
    | none => .error (.InvalidPath s)

/-- The key payload of a `Path`, when it has one. -/
def Path.key? {K : Type} : Path K → Option K
  | .Value k => some k
  | .Prefix k => some k
  | .HasKey k => some k
  | _ => none

/-- Successful outcome of an `Except`, forgetting which error occurred. -/
def exceptOk {E A : Type} : Except E A → Option A
  | .ok a => some a
  | .error _ => none

/-- Decidable equality for `Except`, so concrete codec results can be checked
by `decide`. -/
instance exceptDecEq {E A : Type} [DecidableEq E] [DecidableEq A] :
    DecidableEq (Except E A)
  | .ok a, .ok b =>
    if h : a = b then .isTrue (by rw [h])
    else .isFalse (fun hh => h (Except.ok.inj hh))
  | .error a, .error b =>
    if h : a = b then .isTrue (by rw [h])
    else .isFalse (fun hh => h (Except.error.inj hh))
  | .ok _, .error _ => .isFalse (fun hh => Except.noConfusion hh)
  | .error _, .ok _ => .isFalse (fun hh => Except.noConfusion hh)

/-- The pure decoding core of `Path::from_str`: what it returns on an
already-lowercased input, with the two failure modes collapsed to `none`.
Used to relate `Path.fromStr` on an input and on its lowercased form. -/
def decodeLower {K E : Type} (parse : Str → Except E K) (t : Str) :
    Option (Path K) :=
  if t = DRY_RUN_TX_PATH then some .DryRunTx
  else if t = EPOCH_PATH then some .Epoch
  else
    match splitOnce t with
    | some (l, r) =>
      if l = VALUE_PREFIX then (exceptOk (parse r)).map .Value
      else if l = PREFIX_PREFIX then (exceptOk (parse r)).map .Prefix
      else if l = HAS_KEY_PREFIX then (exceptOk (parse r)).map .HasKey
      else none
    | none => none

/-!
## Transaction result resolver (`TxResponse::find_tx`)

The JSON document model, the external value conversions, and the resolver
itself (rpc.rs lines 360-434), together with the error taxonomy
(rpc.rs lines 437-482).
-/

/-- A `serde_json::Value`. -/
inductive Json where
  | null : Json
  | bool : Bool → Json
  | num : Int → Json
  | str : Str → Json
  | arr : List Json → Json
  | obj : List (Str × Json) → Json

mutual

/-- Structural equality of JSON values (`PartialEq for serde_json::Value`),
used by the hash-matching comparison `hash == tx_hash_json` (rpc.rs 383). -/
def Json.beq : Json → Json → Bool
  | .null, .null => true
  | .bool a, .bool b => a == b
  | .num a, .num b => a == b
  | .str a, .str b => a == b
  | .arr a, .arr b => Json.beqList a b
  | .obj a, .obj b => Json.beqFields a b
  | _, _ => false

/-- Elementwise equality of JSON arrays. -/
def Json.beqList : List Json → List Json → Bool
  | [], [] => true
  | x :: xs, y :: ys => Json.beq x y && Json.beqList xs ys
  | _, _ => false

/-- Elementwise equality of JSON object entries. -/
def Json.beqFields : List (Str × Json) → List (Str × Json) → Bool
  | [], [] => true
  | (k, v) :: xs, (l, w) :: ys => k == l && Json.beq v w && Json.beqFields xs ys
  | _, _ => false

end

/-- Key lookup in a JSON object (`serde_json` maps have unique keys; the
first binding wins). -/
def jsonLookup : List (Str × Json) → Str → Option Json
  | [], _ => none
  | (k, v) :: rest, key => if k = key then some v else jsonLookup rest key

/-- The event array the jsonpath `$.events.['<field>']` addresses: the array
stored under key `field` of the `events` object of the document, and `[]`
whenever any step of that path does not match (document not an object,
`events` missing or not an object, `field` missing or not an array). -/
def eventsArray (doc : Json) (field : Str) : List Json :=
  match doc with
  | .obj fields =>
    match jsonLookup fields (lit "events") with
    | some (.obj efields) =>
      match jsonLookup efields field with
      | some (.arr xs) => xs
      | _ => []
    | _ => []
  | _ => []

/-- The jsonpath selection `$.events.['<field>'][<i>]` (rpc.rs 380, 390-400):
the singleton of the i-th element when it exists, otherwise the empty
selection.  Mirrors `jsonpath_lib`: a path that matches nothing yields an
empty `Ok` selection, not an error. -/
def selectAt (doc : Json) (field : Str) (i : Nat) : List Json :=
  match (eventsArray doc field).get? i with
  | some v => [v]
  | none => []

/-- `enum TendermintEventType` (rpc.rs lines 36-43). -/
inductive TendermintEventType where
  | Accepted : TendermintEventType
  | Applied : TendermintEventType
deriving DecidableEq

/-- `impl Display for TendermintEventType` (rpc.rs lines 45-52). -/
def TendermintEventType.toStr : TendermintEventType → Str
  | .Accepted => ACCEPTED
  | .Applied => APPLIED

/-- `struct EventError(String)` (rpc.rs lines 77-80). -/
structure EventError where
  msg : Str
deriving DecidableEq

/-- `impl TryFrom<&str> for TendermintEventType` (rpc.rs lines 63-75).  The
`Accepted` arm is compiled in only without the ABCI feature; per the spec
that build-time capability is an explicit argument `acceptedSupported`. -/
def TendermintEventType.tryFromStr (acceptedSupported : Bool) (v : Str) :
    Except EventError TendermintEventType :=
  if acceptedSupported = true ∧ v = ACCEPTED then .ok .Accepted
  else if v = APPLIED then .ok .Applied
  else .error ⟨v⟩

/-- Modelled from the spec: the external transaction-hash type
(`crate::types::transaction::Hash`, not part of src/) is "a fixed-width byte
value reconstructed from the original matched string's bytes" (spec section
4.2 step 5); the spec's positional-correlation property treats that
reconstruction as succeeding on a matched hash string, so the model keeps the
string's bytes. -/
structure Hash where
  bytes : Str
deriving DecidableEq

/-- Modelled from the spec: addresses (`crate::types::address::Address`, not
part of src/) are opaque; only their JSON string form matters here. -/
abbrev Address := Str

/-- `std::num::ParseIntError` kinds produced by `u8::from_str` /
`u64::from_str` on unsigned integers. -/
inductive ParseIntError where
  | empty : ParseIntError
  | invalidDigit : ParseIntError
  | posOverflow : ParseIntError
deriving DecidableEq

/-- Opaque model of `serde_json::Error` (only its occurrence matters). -/
inductive SerdeErr where
  | mk : SerdeErr
deriving DecidableEq

/-- Opaque model of `jsonpath_lib::JsonPathError`. -/
inductive JsonPathErr where
  | mk : JsonPathErr
deriving DecidableEq

/-- Opaque model of the tendermint transport error `TError`. -/
inductive TErr where
  | mk : TErr
deriving DecidableEq

/-- Opaque model of `std::io::Error`. -/
inductive IoErr where
  | mk : IoErr
deriving DecidableEq

/-- Opaque model of `hex::FromHexError`. -/
inductive HexErr where
  | mk : HexErr
deriving DecidableEq

/-- `enum QueryError` (rpc.rs lines 437-482), with external error payloads
modelled opaquely. -/
inductive QueryError where
  | ABCIQueryError : TErr → QueryError
  | ConversionError : ParseIntError → QueryError
  | Decoding : IoErr → QueryError
  | Format : Str → Nat → QueryError
  | FromHexError : HexErr → QueryError
  | BlockNotFound : Hash → QueryError
  | EventNotFound : Hash → QueryError
  | JsonError : JsonPathErr → QueryError
  | NegativeVotingPowerDeltas : QueryError
  | SerdeError : SerdeErr → QueryError
  | UnsetVotingPower : QueryError
  | UnsupportedTendermintEvent : EventError → QueryError
  | TxNotFound : TErr → QueryError
deriving DecidableEq

/-- Outcome of running `find_tx`: a value, a returned `QueryError`, or a Rust
panic (`v[0]` on an empty `Vec`, i.e. index out of bounds). -/
inductive Outcome (A : Type) where
  | ok : A → Outcome A
  | err : QueryError → Outcome A
  | panicked : Outcome A
deriving DecidableEq

/-- Sequencing of fallible steps: `?` on results, with both a returned error
and a panic cutting the computation short. -/
def Outcome.bind {A B : Type} : Outcome A → (A → Outcome B) → Outcome B
  | .ok a, f => f a
  | .err e, _ => .err e
  | .panicked, _ => .panicked

/-- `struct TxResponse` (rpc.rs lines 324-339).  `height` is the external
`BlockHeight(u64)` newtype and `hash` the external fixed-width hash; `code`
is a `u8` and `gas_used` a `u64`, ranges enforced by the string parsers. -/
structure TxResponse where
  info : Str
  height : Nat
  hash : Hash
  code : Nat
  gas_used : Nat
  initialized_accounts : List Address
deriving DecidableEq

/-- `v[0]` on a jsonpath selection (rpc.rs 382, 402-405): first element, or a
panic when the selection is empty. -/
def getIndex0 : List Json → Outcome Json
  | [] => .panicked
  | v :: _ => .ok v

/-- `serde_json::from_value::<String>`: succeeds exactly on a JSON string. -/
def fromValueString : Json → Outcome Str
  | .str s => .ok s
  | _ => .err (.SerdeError .mk)

/-- `u64::from_str` / `u8::from_str` digit accumulation: all remaining
characters must be ASCII digits. -/
def digitsValAux : Str → Nat → Option Nat
  | [], acc => some acc
  | c :: cs, acc =>
    if 48 ≤ c ∧ c ≤ 57 then digitsValAux cs (acc * 10 + (c - 48))
    else none

/-- Rust `FromStr` for unsigned integers: optional leading `+`, then one or
more ASCII digits, value below `bound` (`2^8` or `2^64`); otherwise the
matching `ParseIntError`. -/
def parseUnsigned (bound : Nat) (s : Str) : Except ParseIntError Nat :=
  match s with
  | [] => .error .empty
  | 43 :: rest =>
    match rest with
    | [] => .error .invalidDigit
    | _ =>
      match digitsValAux rest 0 with
      | some n => if n < bound then .ok n else .error .posOverflow
      | none => .error .invalidDigit
  | _ =>
    match digitsValAux s 0 with
    | some n => if n < bound then .ok n else .error .posOverflow
    | none => .error .invalidDigit

/-- `u64::from_str(..)?` with the `?`-conversion into
`QueryError::ConversionError` (rpc.rs 428, 431, 443-445). -/
def parseU64 (s : Str) : Outcome Nat :=
  match parseUnsigned (2 ^ 64) s with
  | .ok n => .ok n
  | .error e => .err (.ConversionError e)

/-- `u8::from_str(..)?` with the `?`-conversion into
`QueryError::ConversionError` (rpc.rs 430). -/
def parseU8 (s : Str) : Outcome Nat :=
  match parseUnsigned (2 ^ 8) s with
  | .ok n => .ok n
  | .error e => .err (.ConversionError e)

/-- `Hash::try_from(hash_str.as_bytes())` (rpc.rs 429).  Modelled from the
spec (section 4.2 step 5): the fixed-width byte value is reconstructed from
the matched string's bytes, and for a matched hash this reconstruction
succeeds. -/
def Hash.ofStr (s : Str) : Hash := ⟨s⟩

/-- JSON whitespace skipping, for the nested-array decode. -/
def skipWs : Str → Str
  | c :: cs => if c = 32 ∨ c = 9 ∨ c = 10 ∨ c = 13 then skipWs cs else c :: cs
  | [] => []

/-- Body of a JSON string after its opening quote: the decoded content and
the rest of the input after the closing quote.  Handles the escapes that can
occur in an address string (`\"`, `\\`, `\/`); `none` on malformed input. -/
def parseStrBody : Str → Option (Str × Str)
  | [] => none
  | c :: cs =>
    if c = 34 then some ([], cs)
    else if c = 92 then
      match cs with
      | d :: cs2 =>
        if d = 34 ∨ d = 92 ∨ d = 47 then
          match parseStrBody cs2 with
          | some (s, r) => some (d :: s, r)
          | none => none
        else none
      | [] => none
    else
      match parseStrBody cs with
      | some (s, r) => some (c :: s, r)
      | none => none

/-- Comma-separated JSON strings up to the closing `]`, fuelled by the input
length (each step consumes at least one character). -/
def parseElemsAux : Nat → Str → List Str → Option (List Str × Str)
  | 0, _, _ => none
  | fuel + 1, s, acc =>
    match s with
    | 34 :: cs =>
      match parseStrBody cs with
      | some (elem, rest) =>
        match skipWs rest with
        | 44 :: cs2 => parseElemsAux fuel (skipWs cs2) (acc ++ [elem])
        | 93 :: cs2 => some (acc ++ [elem], cs2)
        | _ => none
      | none => none
    | _ => none

/-- `serde_json::from_str::<Vec<Address>>` on the inner (double-encoded)
account list (rpc.rs 421): parse the string as a JSON array of strings,
requiring the whole input to be consumed. -/
def parseJsonStrArray (s : Str) : Option (List Str) :=
  match skipWs s with
  | 91 :: rest =>
    match skipWs rest with
    | 93 :: rest2 => if skipWs rest2 = [] then some [] else none
    | t =>
      match parseElemsAux (t.length + 1) t [] with
      | some (xs, rest2) => if skipWs rest2 = [] then some xs else none
      | none => none
  | _ => none

/-- The `initialized_accounts` block of `find_tx` (rpc.rs lines 408-424): an
empty selection (field missing, or index past the array) yields an empty
account list; a non-empty selection is decoded in two stages, first the
element at the matched index as a JSON string, then that string as a JSON
array of addresses, both failures surfacing as `SerdeError` via `?`. -/
def decodeAccounts (values : List Json) : Outcome (List Address) :=
  match values with
  | [] => .ok []
  | v :: _ =>
    Outcome.bind (fromValueString v) (fun raw =>
      match parseJsonStrArray raw with
      | some xs => .ok xs
      | none => .err (.SerdeError .mk))

/-- The hash-scanning loop of `find_tx` (rpc.rs lines 377-387) on a fixed
document: starting from index `i`, select `$.events.['<cat>.hash'][index]`
and compare it with the target.  On a fixed document the successive
selections are exactly the successive elements of the hash array, so the
loop is recursion over that array; when the index runs past the end (or the
field is missing, so that already the first selection is empty) the Rust
code evaluates `hash[0]` on an empty selection and panics — the loop
terminates only through a match or through that panic. -/
def hashLoop (target : Json) : List Json → Nat → Outcome (Nat × Json)
  | [], _ => .panicked
  | v :: rest, i =>
    if Json.beq v target then .ok (i, v) else hashLoop target rest (i + 1)

/-- `TxResponse::find_tx` (rpc.rs lines 360-434), in the source's evaluation
order: resolve the category selector (375), scan the hash array (377-387),
select the four scalar fields and the optional account field at the matched
index (389-400), convert the scalars from JSON strings interleaved with the
panicking `[0]` indexings (402-406), decode the account list (408-424), and
build the response, parsing height, code and gas as unsigned integers
(426-433). -/
def TxResponse.findTx (acceptedSupported : Bool) (doc : Json)
    (eventType : Str) (txHash : Str) : Outcome TxResponse :=
  match TendermintEventType.tryFromStr acceptedSupported eventType with
  | .error e => .err (.UnsupportedTendermintEvent e)
  | .ok evtKey =>
    Outcome.bind
      (hashLoop (.str txHash)
        (eventsArray doc (TendermintEventType.toStr evtKey ++ lit ".hash")) 0)
      (fun iv =>
    Outcome.bind
      (getIndex0 (selectAt doc (TendermintEventType.toStr evtKey ++ lit ".info") iv.1))
      (fun infoJ =>
    Outcome.bind (fromValueString infoJ) (fun info =>
    Outcome.bind
      (getIndex0 (selectAt doc (TendermintEventType.toStr evtKey ++ lit ".code") iv.1))
      (fun codeJ =>
    Outcome.bind (fromValueString codeJ) (fun codeStr =>
    Outcome.bind
      (getIndex0 (selectAt doc (TendermintEventType.toStr evtKey ++ lit ".gas_used") iv.1))
      (fun gasJ =>
    Outcome.bind (fromValueString gasJ) (fun gasStr =>
    Outcome.bind
      (getIndex0 (selectAt doc (TendermintEventType.toStr evtKey ++ lit ".height") iv.1))
      (fun heightJ =>
    Outcome.bind (fromValueString heightJ) (fun heightStr =>
    Outcome.bind (fromValueString iv.2) (fun hashStr =>
    Outcome.bind
      (decodeAccounts
        (selectAt doc (TendermintEventType.toStr evtKey ++ lit ".initialized_accounts") iv.1))
      (fun accounts =>
    Outcome.bind (parseU64 heightStr) (fun height =>
    Outcome.bind (parseU8 codeStr) (fun code =>
    Outcome.bind (parseU64 gasStr) (fun gas =>
    .ok ⟨info, height, Hash.ofStr hashStr, code, gas, accounts⟩))))))))))))))

/-- Whether an outcome is one of the two not-found error variants. -/
def Outcome.isNotFound {A : Type} : Outcome A → Bool
  | .err (.EventNotFound _) => true
  | .err (.BlockNotFound _) => true
  | _ => false

/-!
## Concrete inputs used by the claims
-/

/-- The spec's positional-correlation document (spec section 8): two applied
transactions, columnar arrays, no `initialized_accounts` field. -/
def docC4 : Json :=
  .obj [(lit "events", .obj
    [(lit "applied.hash", .arr [.str (lit "h1"), .str (lit "h2")]),
     (lit "applied.info", .arr [.str (lit "i1"), .str (lit "i2")]),
     (lit "applied.height", .arr [.str (lit "1"), .str (lit "2")]),
     (lit "applied.code", .arr [.str (lit "0"), .str (lit "1")]),
     (lit "applied.gas_used", .arr [.str (lit "10"), .str (lit "20")])])]

/-- One applied transaction with a double-encoded account list. -/
def docC6 : Json :=
  .obj [(lit "events", .obj
    [(lit "applied.hash", .arr [.str (lit "h1")]),
     (lit "applied.info", .arr [.str (lit "i1")]),
     (lit "applied.height", .arr [.str (lit "1")]),
     (lit "applied.code", .arr [.str (lit "0")]),
     (lit "applied.gas_used", .arr [.str (lit "10")]),
     (lit "applied.initialized_accounts",
       .arr [.str (lit "[\"addr1\",\"addr2\"]")])])]

/-- An event log whose only applied hash is `h1` (no match for `hZZZ`). -/
def docNotFound : Json :=
  .obj [(lit "events", .obj
    [(lit "applied.hash", .arr [.str (lit "h1")])])]

/-- An event log with no `applied.hash` field at all. -/
def docNoHashField : Json := .obj [(lit "events", .obj [])]

/-- `docC4` with a non-numeric exit code at the matching index. -/
def docC9code : Json :=
  .obj [(lit "events", .obj
    [(lit "applied.hash", .arr [.str (lit "h1"), .str (lit "h2")]),
     (lit "applied.info", .arr [.str (lit "i1"), .str (lit "i2")]),
     (lit "applied.height", .arr [.str (lit "1"), .str (lit "2")]),
     (lit "applied.code", .arr [.str (lit "0"), .str (lit "not_a_number")]),
     (lit "applied.gas_used", .arr [.str (lit "10"), .str (lit "20")])])]

/-- `docC4` with a non-numeric height at the matching index. -/
def docC9height : Json :=
  .obj [(lit "events", .obj
    [(lit "applied.hash", .arr [.str (lit "h1"), .str (lit "h2")]),
     (lit "applied.info", .arr [.str (lit "i1"), .str (lit "i2")]),
     (lit "applied.height", .arr [.str (lit "1"), .str (lit "x2")]),
     (lit "applied.code", .arr [.str (lit "0"), .str (lit "1")]),
     (lit "applied.gas_used", .arr [.str (lit "10"), .str (lit "20")])])]

/-- `docC4` with a non-numeric gas value at the matching index. -/
def docC9gas : Json :=
  .obj [(lit "events", .obj
    [(lit "applied.hash", .arr [.str (lit "h1"), .str (lit "h2")]),
     (lit "applied.info", .arr [.str (lit "i1"), .str (lit "i2")]),
     (lit "applied.height", .arr [.str (lit "1"), .str (lit "2")]),
     (lit "applied.code", .arr [.str (lit "0"), .str (lit "1")]),
     (lit "applied.gas_used", .arr [.str (lit "10"), .str (lit "gas!")])])]

/-- The identity key codec: a storage-key type whose values are exactly their
string forms.  It satisfies the collaborator contract of spec section 6
(`parse(to_string(k)) == k`). -/
def idParse : Str → Except Unit Str := fun r => .ok r

/-- A key parser that rejects every key, for exercising
`InvalidStorageKey`. -/
def rejParse : Str → Except Unit Str := fun _ => .error ()

/-!
## Helper lemmas
-/

/-- Lowercasing is idempotent on each scalar value. -/
theorem lowerChar_idem (c : Nat) : lowerChar (lowerChar c) = lowerChar c := by
  unfold lowerChar
  split_ifs <;> omega

/-- Lowercasing a whole string is idempotent. -/
theorem toLowerStr_idem (s : Str) : toLowerStr (toLowerStr s) = toLowerStr s := by
  unfold toLowerStr
  rw [List.map_map]
  exact List.map_congr_left fun c _ => lowerChar_idem c

/-- Lowercasing `"value/<r>"` lowercases the remainder in place. -/
theorem toLowerStr_value_slash (r : Str) :
    toLowerStr (VALUE_PREFIX ++ 47 :: r) = VALUE_PREFIX ++ 47 :: toLowerStr r := by
  have h1 : List.map lowerChar VALUE_PREFIX = VALUE_PREFIX := by decide
  unfold toLowerStr
  rw [List.map_append, List.map_cons, h1, show lowerChar 47 = 47 from by decide]

/-- Lowercasing `"prefix/<r>"` lowercases the remainder in place. -/
theorem toLowerStr_prefix_slash (r : Str) :
    toLowerStr (PREFIX_PREFIX ++ 47 :: r) = PREFIX_PREFIX ++ 47 :: toLowerStr r := by
  have h1 : List.map lowerChar PREFIX_PREFIX = PREFIX_PREFIX := by decide
  unfold toLowerStr
  rw [List.map_append, List.map_cons, h1, show lowerChar 47 = 47 from by decide]

/-- Lowercasing `"has_key/<r>"` lowercases the remainder in place. -/
theorem toLowerStr_has_key_slash (r : Str) :
    toLowerStr (HAS_KEY_PREFIX ++ 47 :: r) = HAS_KEY_PREFIX ++ 47 :: toLowerStr r := by
  have h1 : List.map lowerChar HAS_KEY_PREFIX = HAS_KEY_PREFIX := by decide
  unfold toLowerStr
  rw [List.map_append, List.map_cons, h1, show lowerChar 47 = 47 from by decide]

/-- Two strings with different first characters differ. -/
theorem ne_of_head {a b : Str} (h : a.head? ≠ b.head?) : a ≠ b :=
  fun e => h (congrArg List.head? e)

/-- Decoding an input of the shape `"value/<r>"`: the key parser is applied
to the lowercased remainder, whole, and its verdict decides the result. -/
theorem fromStr_value_eq {K E : Type} (parse : Str → Except E K) (r : Str) :
    Path.fromStr parse (VALUE_PREFIX ++ 47 :: r) =
      (match parse (toLowerStr r) with
        | .ok k => .ok (.Value k)
        | .error e => .error (.InvalidStorageKey e)) := by
  have hdry : VALUE_PREFIX ++ 47 :: toLowerStr r ≠ DRY_RUN_TX_PATH :=
    ne_of_head (by
      rw [show (VALUE_PREFIX ++ 47 :: toLowerStr r).head? = some 118 from rfl]
      decide)
  have hepoch : VALUE_PREFIX ++ 47 :: toLowerStr r ≠ EPOCH_PATH :=
    ne_of_head (by
      rw [show (VALUE_PREFIX ++ 47 :: toLowerStr r).head? = some 118 from rfl]
      decide)
  unfold Path.fromStr
  rw [toLowerStr_value_slash, if_neg hdry, if_neg hepoch,
    show splitOnce (VALUE_PREFIX ++ 47 :: toLowerStr r)
      = some (VALUE_PREFIX, toLowerStr r) from rfl]
  rfl

/-- Decoding an input of the shape `"prefix/<r>"`. -/
theorem fromStr_prefix_eq {K E : Type} (parse : Str → Except E K) (r : Str) :
    Path.fromStr parse (PREFIX_PREFIX ++ 47 :: r) =
      (match parse (toLowerStr r) with
        | .ok k => .ok (.Prefix k)
        | .error e => .error (.InvalidStorageKey e)) := by
  have hdry : PREFIX_PREFIX ++ 47 :: toLowerStr r ≠ DRY_RUN_TX_PATH :=
    ne_of_head (by
      rw [show (PREFIX_PREFIX ++ 47 :: toLowerStr r).head? = some 112 from rfl]
      decide)
  have hepoch : PREFIX_PREFIX ++ 47 :: toLowerStr r ≠ EPOCH_PATH :=
    ne_of_head (by
      rw [show (PREFIX_PREFIX ++ 47 :: toLowerStr r).head? = some 112 from rfl]
      decide)
  unfold Path.fromStr
  rw [toLowerStr_prefix_slash, if_neg hdry, if_neg hepoch,
    show splitOnce (PREFIX_PREFIX ++ 47 :: toLowerStr r)
      = some (PREFIX_PREFIX, toLowerStr r) from rfl]
  rfl

/-- Decoding an input of the shape `"has_key/<r>"`. -/
theorem fromStr_has_key_eq {K E : Type} (parse : Str → Except E K) (r : Str) :
    Path.fromStr parse (HAS_KEY_PREFIX ++ 47 :: r) =
      (match parse (toLowerStr r) with
        | .ok k => .ok (.HasKey k)
        | .error e => .error (.InvalidStorageKey e)) := by
  have hdry : HAS_KEY_PREFIX ++ 47 :: toLowerStr r ≠ DRY_RUN_TX_PATH :=
    ne_of_head (by
      rw [show (HAS_KEY_PREFIX ++ 47 :: toLowerStr r).head? = some 104 from rfl]
      decide)
  have hepoch : HAS_KEY_PREFIX ++ 47 :: toLowerStr r ≠ EPOCH_PATH :=
    ne_of_head (by
      rw [show (HAS_KEY_PREFIX ++ 47 :: toLowerStr r).head? = some 104 from rfl]
      decide)
  unfold Path.fromStr
  rw [toLowerStr_has_key_slash, if_neg hdry, if_neg hepoch,
    show splitOnce (HAS_KEY_PREFIX ++ 47 :: toLowerStr r)
      = some (HAS_KEY_PREFIX, toLowerStr r) from rfl]
  rfl

/-- `Path.fromStr` factors through its lowercased input: up to the identity
of the error, decoding `s` is decoding the lowercased `s`. -/
theorem exceptOk_fromStr {K E : Type} (parse : Str → Except E K) (s : Str) :
    exceptOk (Path.fromStr parse s) = decodeLower parse (toLowerStr s) := by
  unfold Path.fromStr decodeLower
  split_ifs
  · rfl
  · rfl
  · split
    · rename_i l r _
      by_cases g1 : l = VALUE_PREFIX
      · rw [if_pos g1, if_pos g1]
        cases parse r <;> rfl
      · rw [if_neg g1, if_neg g1]
        by_cases g2 : l = PREFIX_PREFIX
        · rw [if_pos g2, if_pos g2]
          cases parse r <;> rfl
        · rw [if_neg g2, if_neg g2]
          by_cases g3 : l = HAS_KEY_PREFIX
          · rw [if_pos g3, if_pos g3]
            cases parse r <;> rfl
          · rw [if_neg g3, if_neg g3]
            rfl
    · rfl

/-- `Outcome.bind` produces no not-found error when neither side does. -/
theorem Outcome.bind_isNotFound {A B : Type} {x : Outcome A}
    {f : A → Outcome B} (hx : x.isNotFound = false)
    (hf : ∀ a, (f a).isNotFound = false) :
    (Outcome.bind x f).isNotFound = false := by
  cases x with
  | ok a => exact hf a
  | err e => cases e <;> first | rfl | exact hx
  | panicked => rfl

/-- The hash scan ends in a match or a panic, never in a not-found error. -/
theorem hashLoop_isNotFound (t : Json) (xs : List Json) :
    ∀ i, (hashLoop t xs i).isNotFound = false := by
  induction xs with
  | nil => intro i; rfl
  | cons v rest ih =>
    intro i
    unfold hashLoop
    by_cases h : Json.beq v t = true
    · rw [if_pos h]; rfl
    · rw [if_neg h]; exact ih (i + 1)

/-- Indexing a selection panics or succeeds, never a not-found error. -/
theorem getIndex0_isNotFound (xs : List Json) :
    (getIndex0 xs).isNotFound = false := by
  cases xs <;> rfl

/-- String extraction yields `SerdeError` on failure, never not-found. -/
theorem fromValueString_isNotFound (j : Json) :
    (fromValueString j).isNotFound = false := by
  cases j <;> rfl

/-- Integer parsing yields `ConversionError` on failure, never not-found. -/
theorem parseU64_isNotFound (s : Str) : (parseU64 s).isNotFound = false := by
  unfold parseU64
  cases parseUnsigned (2 ^ 64) s <;> rfl

/-- Integer parsing yields `ConversionError` on failure, never not-found. -/
theorem parseU8_isNotFound (s : Str) : (parseU8 s).isNotFound = false := by
  unfold parseU8
  cases parseUnsigned (2 ^ 8) s <;> rfl

/-- Account decoding yields `SerdeError` on failure, never not-found. -/
theorem decodeAccounts_isNotFound (values : List Json) :
    (decodeAccounts values).isNotFound = false := by
  cases values with
  | nil => rfl
  | cons v rest =>
    exact Outcome.bind_isNotFound (fromValueString_isNotFound v)
      (fun raw => by cases parseJsonStrArray raw <;> rfl)

/-- `find_tx` never produces `EventNotFound` or `BlockNotFound`: those two
`QueryError` variants are declared (rpc.rs 455-463) but never constructed by
`find_tx`, whose only failure modes are `UnsupportedTendermintEvent`,
`SerdeError`, `ConversionError` and the out-of-bounds panic. -/
theorem findTx_isNotFound (flag : Bool) (doc : Json) (et h : Str) :
    (TxResponse.findTx flag doc et h).isNotFound = false := by
  unfold TxResponse.findTx
  cases TendermintEventType.tryFromStr flag et with
  | error e => rfl
  | ok evtKey =>
    refine Outcome.bind_isNotFound (hashLoop_isNotFound _ _ 0) (fun iv => ?_)
    refine Outcome.bind_isNotFound (getIndex0_isNotFound _) (fun infoJ => ?_)
    refine Outcome.bind_isNotFound (fromValueString_isNotFound _) (fun info => ?_)
    refine Outcome.bind_isNotFound (getIndex0_isNotFound _) (fun codeJ => ?_)
    refine Outcome.bind_isNotFound (fromValueString_isNotFound _) (fun codeStr => ?_)
    refine Outcome.bind_isNotFound (getIndex0_isNotFound _) (fun gasJ => ?_)
    refine Outcome.bind_isNotFound (fromValueString_isNotFound _) (fun gasStr => ?_)
    refine Outcome.bind_isNotFound (getIndex0_isNotFound _) (fun heightJ => ?_)
    refine Outcome.bind_isNotFound (fromValueString_isNotFound _) (fun heightStr => ?_)
    refine Outcome.bind_isNotFound (fromValueString_isNotFound _) (fun hashStr => ?_)
    refine Outcome.bind_isNotFound (decodeAccounts_isNotFound _) (fun accounts => ?_)
    refine Outcome.bind_isNotFound (parseU64_isNotFound _) (fun height => ?_)
    refine Outcome.bind_isNotFound (parseU8_isNotFound _) (fun code => ?_)
    refine Outcome.bind_isNotFound (parseU64_isNotFound _) (fun gas => ?_)
    rfl

/-!
## Claims
-/

/-- Claim C1, counterexample: the claim as stated is false.  With the
identity key codec — which satisfies the collaborator contract
`parse(to_string(k)) == k` — the path `Value "A"` has a round-tripping key
payload, yet decoding its wire string `"value/A"` yields `Value "a"`, not
the original path: `Path::from_str` lowercases the whole input, key payload
included, before parsing the key. -/
theorem C1_counterexample :
    idParse (lit "A") = .ok (lit "A")
    ∧ Path.fromStr idParse (Path.toStr id (.Value (lit "A"))) ≠
        .ok (.Value (lit "A"))
    ∧ Path.fromStr idParse (Path.toStr id (.Value (lit "A"))) =
        .ok (.Value (lit "a")) :=
  ⟨rfl, by decide, by decide⟩

/-- Claim C1, amended: for every constructible `Path` value whose key
payload round-trips through the external key parser AND whose key string
form is unchanged by lowercasing, decoding the encoded wire string yields
the path again: `Path::from_str(p.to_string()) == Ok(p)`. -/
theorem C1_roundtrip_lowercase {K E : Type} (parse : Str → Except E K)
    (keyStr : K → Str) (p : Path K)
    (hround : ∀ k, p.key? = some k → parse (keyStr k) = .ok k)
    (hlower : ∀ k, p.key? = some k → toLowerStr (keyStr k) = keyStr k) :
    Path.fromStr parse (Path.toStr keyStr p) = .ok p := by
  cases p with
  | DryRunTx => rfl
  | Epoch => rfl
  | Value k =>
    have h1 := hround k rfl
    have h2 := hlower k rfl
    show Path.fromStr parse (VALUE_PREFIX ++ 47 :: keyStr k) = .ok (.Value k)
    rw [fromStr_value_eq, h2, h1]
  | Prefix k =>
    have h1 := hround k rfl
    have h2 := hlower k rfl
    show Path.fromStr parse (PREFIX_PREFIX ++ 47 :: keyStr k) = .ok (.Prefix k)
    rw [fromStr_prefix_eq, h2, h1]
  | HasKey k =>
    have h1 := hround k rfl
    have h2 := hlower k rfl
    show Path.fromStr parse (HAS_KEY_PREFIX ++ 47 :: keyStr k) = .ok (.HasKey k)
    rw [fromStr_has_key_eq, h2, h1]

/-- Witness for the amended claim C1 at the concrete path `Value "abc"`
under the identity key codec. -/
theorem C1_roundtrip_lowercase_witness :
    Path.fromStr idParse (Path.toStr id (.Value (lit "abc"))) =
      .ok (.Value (lit "abc")) := by
  apply C1_roundtrip_lowercase
  · intro k hk
    have h2 : (some (lit "abc") : Option Str) = some k := hk
    injection h2 with h3
    subst h3
    rfl
  · intro k hk
    have h2 : (some (lit "abc") : Option Str) = some k := hk
    injection h2 with h3
    subst h3
    decide

/-- Claim C2, counterexample: the claim as stated is false.  On input
`"value/A"` the identity key parser — whose output is exactly the string it
was handed — receives `"a"`, the case-folded remainder, not the original
remainder `"A"`: the key payload is not passed verbatim. -/
theorem C2_counterexample :
    Path.fromStr idParse (lit "value/A") = .ok (.Value (lit "a"))
    ∧ lit "a" ≠ lit "A" :=
  ⟨by decide, by decide⟩

/-- Claim C2, amended: on decode the entire input, key payload included, is
case-folded; for every input `"<literal>/<r>"` the key parser is applied to
exactly the lowercased remainder (and its verdict decides the result), so
the payload reaches the parser verbatim only when it contains no uppercase
ASCII. -/
theorem C2_payload_casefolded {K E : Type} (parse : Str → Except E K)
    (r : Str) :
    (Path.fromStr parse (VALUE_PREFIX ++ 47 :: r) =
      (match parse (toLowerStr r) with
        | .ok k => .ok (.Value k)
        | .error e => .error (.InvalidStorageKey e)))
    ∧ (Path.fromStr parse (PREFIX_PREFIX ++ 47 :: r) =
      (match parse (toLowerStr r) with
        | .ok k => .ok (.Prefix k)
        | .error e => .error (.InvalidStorageKey e)))
    ∧ (Path.fromStr parse (HAS_KEY_PREFIX ++ 47 :: r) =
      (match parse (toLowerStr r) with
        | .ok k => .ok (.HasKey k)
        | .error e => .error (.InvalidStorageKey e))) :=
  ⟨fromStr_value_eq parse r, fromStr_prefix_eq parse r,
    fromStr_has_key_eq parse r⟩

/-- Claim C3: `find_tx` on a document with no matching hash.  The loop does
terminate (first and second conjuncts evaluate it), but it ends in the
out-of-bounds panic of `hash[0]` on an empty selection — both when the hash
array has no matching element and when the field is absent — and `find_tx`
can never return the claimed `EventNotFound`/`BlockNotFound` variants: they
are declared in `QueryError` but never constructed (third conjunct). -/
theorem C3_not_found_panics :
    TxResponse.findTx true docNotFound (lit "applied") (lit "hZZZ") = .panicked
    ∧ TxResponse.findTx true docNoHashField (lit "applied") (lit "hZZZ") =
        .panicked
    ∧ ∀ (flag : Bool) (doc : Json) (et h : Str),
        (TxResponse.findTx flag doc et h).isNotFound = false :=
  ⟨by decide, by decide, findTx_isNotFound⟩

/-- Claim C4: positional correlation.  On the spec's columnar document the
match on `"h2"` is at index 1, and all scalar fields are re-read at that
index: the result carries `info "i2"`, height 2, code 1, gas 20, the hash
built from the matched string `"h2"`, and no initialized accounts. -/
theorem C4_positional_correlation :
    TxResponse.findTx true docC4 (lit "applied") (lit "h2") =
      .ok ⟨lit "i2", 2, ⟨lit "h2"⟩, 1, 20, []⟩ := by
  decide

/-- Claim C5: an unrecognized category selector (under the given `Accepted`
capability flag) makes `find_tx` fail with `UnsupportedTendermintEvent`
carrying the selector.  The conclusion holds for every document, so the
failure precedes any access to the event arrays. -/
theorem C5_unsupported_category (flag : Bool) (doc : Json) (et txh : Str)
    (h1 : et ≠ APPLIED) (h2 : flag = true → et ≠ ACCEPTED) :
    TxResponse.findTx flag doc et txh =
      .err (.UnsupportedTendermintEvent ⟨et⟩) := by
  have htry : TendermintEventType.tryFromStr flag et = .error ⟨et⟩ := by
    unfold TendermintEventType.tryFromStr
    rw [if_neg (fun hc => h2 hc.1 hc.2), if_neg h1]
  unfold TxResponse.findTx
  rw [htry]

/-- Witness for claim C5: the selector `"bogus"` on a concrete document. -/
theorem C5_unsupported_category_witness :
    TxResponse.findTx true docC4 (lit "bogus") (lit "h") =
      .err (.UnsupportedTendermintEvent ⟨lit "bogus"⟩) :=
  C5_unsupported_category true docC4 (lit "bogus") (lit "h") (by decide)
    (fun _ => by decide)

/-- Claim C6: the account list.  A present `initialized_accounts` value at
the matched index is decoded in two stages — the JSON string
`"[\"addr1\",\"addr2\"]"` yields the two addresses (first conjunct); a
missing field means an empty selection at the matched index, which yields an
empty account list (second and third conjuncts: on `docC4`, which has no
such field, the selection at the matched index 1 decodes to `[]`). -/
theorem C6_initialized_accounts :
    TxResponse.findTx true docC6 (lit "applied") (lit "h1") =
      .ok ⟨lit "i1", 1, ⟨lit "h1"⟩, 0, 10, [lit "addr1", lit "addr2"]⟩
    ∧ decodeAccounts (selectAt docC4 (lit "applied.initialized_accounts") 1) =
        .ok []
    ∧ decodeAccounts [] = .ok [] :=
  ⟨by decide, by decide, rfl⟩

/-- Claim C7: rejected shapes.  A lowercased input that is neither of the
two payload-free literals and does not split into a recognized keyed shape
fails with `InvalidPath` carrying the original, non-folded input (first
conjunct, and the two concrete spec examples); a recognized keyed shape
whose remainder the key parser rejects fails with `InvalidStorageKey`
wrapping the parser's error (last conjunct). -/
theorem C7_invalid_path {K E : Type} (parse : Str → Except E K) :
    (∀ s : Str, toLowerStr s ≠ DRY_RUN_TX_PATH → toLowerStr s ≠ EPOCH_PATH →
      (∀ l r, splitOnce (toLowerStr s) = some (l, r) →
        l ≠ VALUE_PREFIX ∧ l ≠ PREFIX_PREFIX ∧ l ≠ HAS_KEY_PREFIX) →
      Path.fromStr parse s = .error (.InvalidPath s))
    ∧ Path.fromStr parse (lit "unknown_segment") =
        .error (.InvalidPath (lit "unknown_segment"))
    ∧ Path.fromStr parse (lit "value_no_slash") =
        .error (.InvalidPath (lit "value_no_slash"))
    ∧ (∀ (r : Str) (e : E), parse (toLowerStr r) = .error e →
        Path.fromStr parse (VALUE_PREFIX ++ 47 :: r) =
          .error (.InvalidStorageKey e)) := by
  refine ⟨?_, rfl, rfl, ?_⟩
  · intro s hd he hsplit
    unfold Path.fromStr
    rw [if_neg hd, if_neg he]
    split
    · rename_i l r heq
      obtain ⟨n1, n2, n3⟩ := hsplit l r heq
      rw [if_neg n1, if_neg n2, if_neg n3]
    · rfl
  · intro r e he
    rw [fromStr_value_eq, he]

/-- Witness for claim C7: the unmatched keyed shape `"foo/bar"` fails with
`InvalidPath`, and `"value/k"` under an always-rejecting key parser fails
with `InvalidStorageKey`. -/
theorem C7_invalid_path_witness :
    Path.fromStr rejParse (lit "foo/bar") =
      .error (.InvalidPath (lit "foo/bar"))
    ∧ Path.fromStr rejParse (VALUE_PREFIX ++ 47 :: lit "k") =
        .error (.InvalidStorageKey ()) := by
  refine ⟨(C7_invalid_path rejParse).1 _ (by decide) (by decide) ?_,
    (C7_invalid_path rejParse).2.2.2 (lit "k") () rfl⟩
  intro l r h
  rw [show toLowerStr (lit "foo/bar") = lit "foo/bar" from by decide,
    show splitOnce (lit "foo/bar") = some (lit "foo", lit "bar") from by decide]
    at h
  injection h with h2
  injection h2 with hl hr
  subst hl
  subst hr
  decide

/-- Claim C8, counterexample: the claim as stated is false.  For the input
`"value/A/b"`, whose remainder `"A/b"` contains a `/`, the identity parser
receives the undivided but case-folded `"a/b"`, not the original remainder
`"A/b"`. -/
theorem C8_counterexample :
    Path.fromStr idParse (lit "value/A/b") = .ok (.Value (lit "a/b"))
    ∧ Path.fromStr idParse (lit "value/A/b") ≠ .ok (.Value (lit "A/b")) :=
  ⟨by decide, by decide⟩

/-- Claim C8, amended: `Path::from_str` splits on the first `/` only — for
every input `"value/<rest>"`, `"prefix/<rest>"` or `"has_key/<rest>"` whose
`<rest>` contains `/` characters, the case-folded `<rest>` is passed whole
(undivided) as one string to the external key parser; no further
tokenization on `/` occurs. -/
theorem C8_single_split {K E : Type} (parse : Str → Except E K) (r : Str)
    (hr : 47 ∈ r) :
    (Path.fromStr parse (VALUE_PREFIX ++ 47 :: r) =
      (match parse (toLowerStr r) with
        | .ok k => .ok (.Value k)
        | .error e => .error (.InvalidStorageKey e)))
    ∧ (Path.fromStr parse (PREFIX_PREFIX ++ 47 :: r) =
      (match parse (toLowerStr r) with
        | .ok k => .ok (.Prefix k)
        | .error e => .error (.InvalidStorageKey e)))
    ∧ (Path.fromStr parse (HAS_KEY_PREFIX ++ 47 :: r) =
      (match parse (toLowerStr r) with
        | .ok k => .ok (.HasKey k)
        | .error e => .error (.InvalidStorageKey e))) :=
  ⟨fromStr_value_eq parse r, fromStr_prefix_eq parse r,
    fromStr_has_key_eq parse r⟩

/-- Witness for the amended claim C8 at the slash-containing remainder
`"a/b"` under the identity key codec. -/
theorem C8_single_split_witness :
    (47 : Ch) ∈ lit "a/b"
    ∧ Path.fromStr idParse (VALUE_PREFIX ++ 47 :: lit "a/b") =
        .ok (.Value (lit "a/b")) :=
  ⟨by decide, ((C8_single_split idParse (lit "a/b") (by decide)).1).trans
    (by decide)⟩

/-- Claim C9: scalar conversion failure.  With the matched index's `code`,
`height` or `gas_used` string not an unsigned integer, `find_tx` fails with
`ConversionError` (the `?`-conversion of `ParseIntError`) and returns no
partially populated response. -/
theorem C9_conversion_error :
    TxResponse.findTx true docC9code (lit "applied") (lit "h2") =
      .err (.ConversionError .invalidDigit)
    ∧ TxResponse.findTx true docC9height (lit "applied") (lit "h2") =
        .err (.ConversionError .invalidDigit)
    ∧ TxResponse.findTx true docC9gas (lit "applied") (lit "h2") =
        .err (.ConversionError .invalidDigit) :=
  ⟨by decide, by decide, by decide⟩

/-- Claim C10: `Path::from_str` is invariant under case folding of its
entire input — decoding `s` and decoding the lowercased `s` succeed on
exactly the same inputs and, on success, produce the same `Path` (the key is
parsed from the lowercased remainder in both runs).  Only the string stored
inside a failing `InvalidPath` differs, which `exceptOk` ignores. -/
theorem C10_case_fold_invariant {K E : Type} (parse : Str → Except E K)
    (s : Str) :
    exceptOk (Path.fromStr parse (toLowerStr s)) =
      exceptOk (Path.fromStr parse s) := by
  rw [exceptOk_fromStr, exceptOk_fromStr, toLowerStr_idem]

end AnomaRpc
